import Mathlib

/-!
Shallow embedding of the kraken host-object bridging layer:
the JSC `HTMLAllCollection` binding (`bridge/bindings/jsc/DOM/all_collection.cc`),
the KOM `JSWindow` destructor (`bridge/bindings/KOM/window.h`) and the
JSC debugger bridge (`devtools/impl/jsc_debugger_impl.cc`).

C++ undefined behavior (erasing at or past a vector's end iterator) is
modelled by an `Option` result whose `none` marks that the operation has no
defined outcome.
-/

namespace Kraken

/-- Identity of a native `JSNode::NodeInstance*` pointer. -/
abbrev NodeInstance := Nat

/-- An engine value, to the extent the bound collection functions inspect one:
`JSValueIsObject` and the node instance stored as an object's private data are
the only observations made by the source. -/
inductive JSVal where
  | object (node : NodeInstance)
  | number (n : Int)
  | str (s : String)
  | jsNull
  | undefined
deriving DecidableEq, Repr

/-- Model of `JSValueIsObject`: true exactly for object values. -/
def isObject : JSVal → Bool
  | .object _ => true
  | _ => false

/-- Model of `size_t index = JSValueToNumber(ctx, arguments[0], exception)`:
an integral double converted to `size_t` wraps modulo 2^64, so a negative
index arrives as a huge unsigned value.  Engine coercion of non-numeric
values is out of scope (the spec assumes the engine's coercion rules); the
claims only exercise numeric arguments. -/
def toSizeT : JSVal → Nat
  | .number n => (n % (2 ^ 64 : Int)).toNat
  | _ => 0

/-- Error kinds the collection's bound functions raise via `JSC_THROW_ERROR`.
The source has exactly these two throw sites (both in `add`) plus the arity
throw in `remove`; no other error kind is ever raised by this file. -/
inductive JSError where
  | arityError
  | typeError
deriving DecidableEq, Repr

/-- Model of `JSAllCollection::internalAdd` (all_collection.cc lines 115-124).
With a non-null `before` the source runs
`it = std::find(begin, end, before); m_nodes.erase(it); m_nodes.insert(it, node)`:
when `before` is a member at position `i` this erases that member and inserts
`node` at position `i`; when `before` is not a member, `std::find` yields the
end iterator and `erase(end())` is undefined behavior, modelled as `none`.
With a null `before` the node is appended. -/
def internalAdd (nodes : List NodeInstance) (node : NodeInstance)
    (before : Option NodeInstance) : Option (List NodeInstance) :=
  match before with
  | some b =>
    match nodes.findIdx? (· == b) with
    | some i => some (List.insertIdx i node (nodes.eraseIdx i))
    | none => none
  | none => some (nodes ++ [node])

/-- Model of the bounds-checked body of `JSAllCollection::item`
(all_collection.cc lines 60-65): `index >= m_nodes.size()` returns `nullptr`
(absence), otherwise the node stored at `index`. -/
def itemIndex (nodes : List NodeInstance) (index : Nat) : Option NodeInstance :=
  if h : index < nodes.length then some (nodes.get ⟨index, h⟩) else none

/-- Model of `JSAllCollection::item` (all_collection.cc lines 51-66): fewer
than one argument returns `nullptr` with no exception raised; otherwise the
first argument is coerced to `size_t` and looked up bounds-checked.  No
branch of `item` raises. -/
def item (nodes : List NodeInstance) (args : List JSVal) :
    Except JSError (Option NodeInstance) :=
  match args with
  | [] => .ok none
  | arg0 :: _ => .ok (itemIndex nodes (toSizeT arg0))

/-- Model of `JSAllCollection::add` (all_collection.cc lines 68-98).  Fewer
than one argument raises an arity error; a non-object first argument raises a
type error; a `before` reference is taken only when exactly two arguments were
passed and the second is an object — but the source then reads the before
instance from `nodeRef` (line 92), not from `beforeRef`, so the instance
handed to `internalAdd` as `before` is the node being added itself. -/
def add (nodes : List NodeInstance) (args : List JSVal) :
    Except JSError (Option (List NodeInstance)) :=
  match args with
  | [] => .error .arityError
  | arg0 :: _ =>
    match arg0 with
    | .object node =>
      let hasBefore := args.length == 2 && isObject (args.getD 1 .undefined)
      let beforeInstance : Option NodeInstance :=
        if hasBefore then some node else none
      .ok (internalAdd nodes node beforeInstance)
    | _ => .error .typeError

/-- Model of `JSAllCollection::remove` (all_collection.cc lines 100-113):
fewer than one argument raises an arity error; otherwise
`m_nodes.erase(m_nodes.begin() + index)` runs with no bounds check, which is
undefined behavior (`none`) whenever `index ≥ m_nodes.size()`. -/
def remove (nodes : List NodeInstance) (args : List JSVal) :
    Except JSError (Option (List NodeInstance)) :=
  match args with
  | [] => .error .arityError
  | arg0 :: _ =>
    let index := toSizeT arg0
    if index < nodes.length then .ok (some (nodes.eraseIdx index))
    else .ok none

/-- Result of `JSAllCollection::getProperty` for a name: one of the bound
functions, the live length, or the result of the `HostObject::getProperty`
fallback. -/
inductive PropValue where
  | itemFn
  | addFn
  | removeFn
  | lengthVal (n : Nat)
  | hostFallback (name : String)
deriving DecidableEq, Repr

/-- The keys of `getAllCollectionPropertyMap` (all_collection.cc lines 41-49). -/
def staticPropertyNames : List String := ["item", "add", "remove", "length"]

/-- Model of `JSAllCollection::getProperty` (all_collection.cc lines 10-29):
the static property map is consulted first and every hit returns from inside
the `switch`; only a miss falls through to `HostObject::getProperty`. -/
def getProperty (nodes : List NodeInstance) (name : String) : PropValue :=
  if name = "item" then .itemFn
  else if name = "add" then .addFn
  else if name = "remove" then .removeFn
  else if name = "length" then .lengthVal nodes.length
  else .hostFallback name

/-- State held by a `JSWindow` (window.h lines 36-40): the stored
`_onloadCallback` engine value (`none` models the neutral null value), the
device pixel ratio, and the exclusively owned `location_` sub-object
(`none` models a released `shared_ptr`). -/
structure JSWindow where
  onloadCallback : Option Nat
  devicePixelRatio : Int
  location : Option Nat
deriving DecidableEq, Repr

/-- Model of `JSWindow::~JSWindow` (window.h lines 23-26): the destructor body
assigns `_onloadCallback = nullptr` and `location_ = nullptr`; the state it
yields is what the object holds when its memory is reclaimed. -/
def destructWindow (w : JSWindow) : JSWindow :=
  { w with onloadCallback := none, location := none }

/-- Observable actions of the `JSCDebuggerImpl` methods, in program order. -/
inductive DebuggerEvent where
  | logVerbose
  | engineDetach (isDestructing : Bool)
  | recompileAllJSFunctions
  | dropAllLocks
  | sleepMs (ms : Nat)
deriving DecidableEq, Repr

/-- Model of `JSCDebuggerImpl::detachDebugger` (jsc_debugger_impl.cc lines
26-34): log, then the engine-level `detach(m_globalObject, reason)` with the
reason chosen by `isBeingDestroyed`, then `recompileAllJSFunctions()` only
when not being destroyed. -/
def detachDebugger (isBeingDestroyed : Bool) : List DebuggerEvent :=
  [.logVerbose, .engineDetach isBeingDestroyed] ++
    (if isBeingDestroyed then [] else [.recompileAllJSFunctions])

/-- Model of the poll loop of `runEventLoopWhilePaused` (jsc_debugger_impl.cc
lines 41-43), unrolled for at most `fuel` reads of the flag starting at read
number `i`: each read of a false `m_doneProcessingDebuggerEvents` sleeps
50 ms and loops; a true read exits the loop.  `flag j` is the value the loop
observes at its `j`-th read of the shared flag; `none` means the loop has not
returned within `fuel` reads. -/
def pollLoop (flag : Nat → Bool) : Nat → Nat → Option (List DebuggerEvent)
  | _, 0 => none
  | i, fuel + 1 =>
    if flag i then some []
    else (pollLoop flag (i + 1) fuel).map (DebuggerEvent.sleepMs 50 :: ·)

/-- Model of `JSCDebuggerImpl::runEventLoopWhilePaused` (jsc_debugger_impl.cc
lines 36-44): constructs `JSC::JSLock::DropAllLocks` first, releasing all
engine execution locks, then runs the 50 ms poll loop until
`m_doneProcessingDebuggerEvents` is observed true. -/
def runEventLoopWhilePaused (flag : Nat → Bool) (fuel : Nat) :
    Option (List DebuggerEvent) :=
  (pollLoop flag 0 fuel).map (DebuggerEvent.dropAllLocks :: ·)

/-! ## Claim theorems -/

/-- C1: the claim states that `add(n, before=m)` with `m` at index `k` yields
`item(k) = n`, `item(k+1) = m` and length grown by one.  Evaluating the source
at nodes `[10, 20, 30]`, adding `40` before `20`: `internalAdd` erases the
member `20` and inserts `40` at its position, yielding `[10, 40, 30]` — the
before member is gone and the length is unchanged; and through the
`JSAllCollection::add` entry point the before instance is read from the wrong
argument slot, so the call reaches `erase(end())`, which has no defined
outcome. -/
theorem internalAdd_replaces_before_member :
    internalAdd [10, 20, 30] 40 (some 20) = some [10, 40, 30] ∧
    (some [10, 40, 30] ≠ some [10, 40, 20, 30] ∧ [10, 40, 30].length ≠ 4) ∧
    add [10, 20, 30] [.object 40, .object 20] = .ok none := by
  refine ⟨rfl, ⟨by decide, by decide⟩, rfl⟩

/-- C2 counterexample: the claim states that `item` invoked with fewer than
one argument rejects with an arity error, but the source's `item` returns
`nullptr` with no exception raised — a silent absence. -/
theorem item_zero_args_silent : item [10] [] = Except.ok none := rfl

/-- C2 amended: `add` and `remove` reject an invocation with fewer than one
argument with an arity error, while `item` with fewer than one argument
silently returns absence without raising; none of the three reads an
out-of-bounds argument. -/
theorem collection_arity_errors (nodes : List NodeInstance) :
    add nodes [] = .error .arityError ∧
    remove nodes [] = .error .arityError ∧
    item nodes [] = .ok none :=
  ⟨rfl, rfl, rfl⟩

/-- C3: `item(index)` with `0 ≤ index < length` returns the node stored at
that index; `item(index)` with `index ≥ length` — including a negative index
arriving through the unsigned wrap of the double-to-size_t conversion —
returns absence; and `item` never raises, never wraps and never clamps the
index into range. -/
theorem item_bounds_checked (nodes : List NodeInstance) (index : Nat) :
    (∀ h : index < nodes.length,
        itemIndex nodes index = some (nodes.get ⟨index, h⟩)) ∧
    (nodes.length ≤ index → itemIndex nodes index = none) ∧
    (∀ i : Int, -(2 ^ 63) ≤ i → i < 0 → nodes.length ≤ 2 ^ 63 →
        itemIndex nodes (toSizeT (.number i)) = none) ∧
    (∀ args : List JSVal, ∃ v, item nodes args = Except.ok v) := by
  refine ⟨?_, ?_, ?_, ?_⟩
  · intro h
    simp [itemIndex, h]
  · intro h
    simp [itemIndex]
    omega
  · intro i h1 h2 h3
    have e : i % (2 ^ 64 : Int) = i + 2 ^ 64 := by omega
    have e2 : toSizeT (.number i) = (i + 2 ^ 64).toNat := by
      rw [toSizeT, e]
    rw [e2, itemIndex, dif_neg]
    omega
  · intro args
    cases args with
    | nil => exact ⟨none, rfl⟩
    | cons a t => exact ⟨itemIndex nodes (toSizeT a), rfl⟩

/-- Witness for C3 at the collection `[5, 6]`: index 1 hits, index -1 wraps
out of range. -/
theorem item_bounds_checked_witness :
    itemIndex [5, 6] 1 = some 6 ∧
    itemIndex [5, 6] (toSizeT (.number (-1))) = none :=
  ⟨(item_bounds_checked [5, 6] 1).1 (by decide),
   (item_bounds_checked [5, 6] 1).2.2.1 (-1) (by norm_num) (by norm_num)
     (by norm_num)⟩

/-- C4: the claim states that `remove(index)` with `index ≥ length` surfaces
an index error and leaves the sequence unchanged.  The source has no bounds
check: evaluating `remove` on the one-element collection `[10]` at index 5
(past the end) and at index 1 (the end iterator) reaches
`m_nodes.erase(m_nodes.begin() + index)` out of bounds, which has no defined
outcome and raises nothing. -/
theorem remove_unchecked_out_of_range :
    remove [10] [.number 5] = .ok none ∧
    remove [10] [.number 1] = .ok none := ⟨rfl, rfl⟩

/-- C5: the claim states that a non-null `before` that resolves to no current
member raises an invalid-reference error with no mutation.  The source has no
such check: `internalAdd` on collection `[10]` with the non-member before
reference `99` reaches `erase(end())`, which has no defined outcome and
raises nothing, and the same holds through the `add` entry point (whose
`JSError` type has no invalid-reference kind at all). -/
theorem add_unresolved_before_no_error :
    internalAdd [10] 40 (some 99) = none ∧
    add [10] [.object 40, .object 99] = .ok none := ⟨rfl, rfl⟩

/-- C10: a second argument to `add` that is present but not an object is
silently treated as an absent `before`: the node is appended at the end and
no error of any kind is raised. -/
theorem add_nonobject_before_appends (nodes : List NodeInstance)
    (node : NodeInstance) (v : JSVal) (h : isObject v = false) :
    add nodes [.object node, v] = .ok (some (nodes ++ [node])) := by
  simp [add, internalAdd, h]

/-- Witness for C10: adding node 7 to `[1, 2]` with the number 3 as second
argument appends 7. -/
theorem add_nonobject_before_appends_witness :
    add [1, 2] [.object 7, .number 3] = .ok (some [1, 2, 7]) :=
  add_nonobject_before_appends [1, 2] 7 (.number 3) rfl

/-- C6: a name present in the static property map is answered from inside the
`switch` and never by the `HostObject::getProperty` fallback, and a name
absent from the map is answered exactly by the fallback. -/
theorem getProperty_static_first (nodes : List NodeInstance) (name : String) :
    (name ∈ staticPropertyNames →
        ∀ s, getProperty nodes name ≠ PropValue.hostFallback s) ∧
    (name ∉ staticPropertyNames →
        getProperty nodes name = PropValue.hostFallback name) := by
  constructor
  · intro h s
    simp [staticPropertyNames] at h
    rcases h with h | h | h | h <;> subst h <;> simp [getProperty]
  · intro h
    simp [staticPropertyNames] at h
    obtain ⟨h1, h2, h3, h4⟩ := h
    simp [getProperty, h1, h2, h3, h4]

/-- Witness for C6: the statically declared name `item` is not answered by
the fallback, and the undeclared name `abc` is. -/
theorem getProperty_static_first_witness :
    getProperty [] "item" ≠ PropValue.hostFallback "item" ∧
    getProperty [] "abc" = PropValue.hostFallback "abc" :=
  ⟨(getProperty_static_first [] "item").1 (by decide) "item",
   (getProperty_static_first [] "abc").2 (by decide)⟩

/-- C7: the `JSWindow` destructor clears the stored onload callback to the
neutral value and releases the exclusively owned location sub-object, so the
state present when the object's memory is reclaimed holds neither. -/
theorem window_destructor_clears (w : JSWindow) :
    (destructWindow w).onloadCallback = none ∧
    (destructWindow w).location = none :=
  ⟨rfl, rfl⟩

/-- Helper: if the flag is never observed true, the poll loop never exits,
for any number of unrolled reads. -/
theorem pollLoop_none (flag : Nat → Bool) (hflag : ∀ i, flag i = false) :
    ∀ fuel i, pollLoop flag i fuel = none := by
  intro fuel
  induction fuel with
  | zero => intro i; rfl
  | succ f ih =>
    intro i
    simp [pollLoop, hflag i, ih (i + 1)]

/-- Helper: if the flag is first observed true at the `(i+k)`-th read, the
poll loop started at read `i` performs exactly `k` sleeps of 50 ms and then
exits, for any fuel larger than `k`. -/
theorem pollLoop_replicate (flag : Nat → Bool) :
    ∀ (k i fuel : Nat), (∀ j, j < k → flag (i + j) = false) →
      flag (i + k) = true → k < fuel →
      pollLoop flag i fuel =
        some (List.replicate k (DebuggerEvent.sleepMs 50)) := by
  intro k
  induction k with
  | zero =>
    intro i fuel h0 hk hf
    obtain ⟨f, rfl⟩ : ∃ f, fuel = f + 1 := ⟨fuel - 1, by omega⟩
    have : flag i = true := by simpa using hk
    simp [pollLoop, this]
  | succ k ih =>
    intro i fuel h0 hk hf
    obtain ⟨f, rfl⟩ : ∃ f, fuel = f + 1 := ⟨fuel - 1, by omega⟩
    have hfi : flag i = false := by simpa using h0 0 (by omega)
    have hrec : pollLoop flag (i + 1) f =
        some (List.replicate k (DebuggerEvent.sleepMs 50)) := by
      refine ih (i + 1) f (fun j hj => ?_) ?_ (by omega)
      · have := h0 (j + 1) (by omega)
        rwa [show i + (j + 1) = i + 1 + j by omega] at this
      · rwa [show i + (k + 1) = i + 1 + k by omega] at hk
    simp [pollLoop, hfi, hrec, List.replicate_succ]

/-- C8: `runEventLoopWhilePaused` releases all engine locks first and returns
exactly when the shared `m_doneProcessingDebuggerEvents` flag is observed
set: when the flag is first observed true at the `k`-th read, the trace is
the lock drop followed by exactly `k` sleeps of 50 ms (so it terminates and
polls at a fixed 50 ms interval); when the flag is already set on entry it
returns immediately with no sleep; and while the flag remains false it never
returns. -/
theorem runEventLoopWhilePaused_poll_spec (flag : Nat → Bool) :
    (∀ k, (∀ j, j < k → flag j = false) → flag k = true →
        ∀ fuel, k < fuel →
          runEventLoopWhilePaused flag fuel =
            some (DebuggerEvent.dropAllLocks ::
              List.replicate k (DebuggerEvent.sleepMs 50))) ∧
    (flag 0 = true → ∀ fuel, 0 < fuel →
        runEventLoopWhilePaused flag fuel =
          some [DebuggerEvent.dropAllLocks]) ∧
    ((∀ i, flag i = false) → ∀ fuel, runEventLoopWhilePaused flag fuel = none) := by
  refine ⟨?_, ?_, ?_⟩
  · intro k h0 hk fuel hf
    have := pollLoop_replicate flag k 0 fuel (fun j hj => by simpa using h0 j hj)
      (by simpa using hk) hf
    simp [runEventLoopWhilePaused, this]
  · intro h1 fuel hf
    have := pollLoop_replicate flag 0 0 fuel (fun j hj => absurd hj (by omega))
      (by simpa using h1) hf
    simp [runEventLoopWhilePaused, this]
  · intro h fuel
    simp [runEventLoopWhilePaused, pollLoop_none flag h fuel 0]

/-- Witness for C8: with a flag first observed true at the third read, the
pause loop drops the locks and sleeps twice for 50 ms before returning. -/
theorem runEventLoopWhilePaused_poll_spec_witness :
    runEventLoopWhilePaused (fun i => decide (2 ≤ i)) 5 =
      some [DebuggerEvent.dropAllLocks, DebuggerEvent.sleepMs 50,
        DebuggerEvent.sleepMs 50] :=
  (runEventLoopWhilePaused_poll_spec (fun i => decide (2 ≤ i))).1 2
    (by decide) (by decide) 5 (by decide)

/-- C9: `detachDebugger false` performs the engine-level detach and then
forces recompilation of all functions, while `detachDebugger true` skips the
recompilation step. -/
theorem detachDebugger_recompile :
    detachDebugger false =
      [DebuggerEvent.logVerbose, DebuggerEvent.engineDetach false,
        DebuggerEvent.recompileAllJSFunctions] ∧
    DebuggerEvent.recompileAllJSFunctions ∉ detachDebugger true := by
  exact ⟨rfl, by decide⟩

end Kraken
